import Mathlib

/-!
Verification of the social-graph service (backend `UserService`,
`calculatePopularityScore`, the express routes and the zod validation
schema) against its natural-language specification.

The database state is embedded as four lists of rows mirroring the
`users`, `hobbies`, `user_hobbies` and `friendships` tables.  User and
hobby ids (uuids compared with `<` and `=` in the source) are modelled
as `Nat`; usernames and hobby names as `String`; timestamps as `Nat`.
Each service method becomes a pure function over `DBState`, with
fallible operations returning `Except SvcError`.
-/

namespace SocialGraph

/-- A row of the `users` table: `id, username, age, created_at`. -/
structure UserRow where
  id : Nat
  username : String
  age : Int
  createdAt : Nat
deriving DecidableEq, Repr

/-- A row of the `hobbies` table: `id, name`. -/
structure HobbyRow where
  id : Nat
  name : String
deriving DecidableEq, Repr

/-- A row of the `user_hobbies` junction table: `user_id, hobby_id`
(composite primary key). -/
structure UserHobbyRow where
  userId : Nat
  hobbyId : Nat
deriving DecidableEq, Repr

/-- A row of the `friendships` table: `id, user_id_1, user_id_2`. -/
structure FriendshipRow where
  id : Nat
  userId1 : Nat
  userId2 : Nat
deriving DecidableEq, Repr

/-- The relational store: the four record sets. -/
structure DBState where
  users : List UserRow
  hobbies : List HobbyRow
  userHobbies : List UserHobbyRow
  friendships : List FriendshipRow
deriving DecidableEq, Repr

/-- The error messages thrown by `UserService`, one constructor per
`throw new Error(...)` site. -/
inductive SvcError where
  /-- `'User not found'` -/
  | userNotFound
  /-- `'Username already exists'` -/
  | usernameExists
  /-- a zod `ZodError` from `createUserSchema.parse` -/
  | validationFailed
  /-- `'Failed to create user'` -/
  | createFailed
  /-- `'Cannot delete user with active friendships. Remove friendships first.'` -/
  | activeFriendships
  /-- `'One or both users not found'` -/
  | bothUsersNotFound
  /-- `'Friendship already exists'` -/
  | friendshipExists
  /-- `'Cannot create friendship with yourself'` -/
  | selfFriendship
  /-- `'Friendship not found'` -/
  | friendshipNotFound
  /-- `'Hobby already assigned to user'` -/
  | hobbyAssigned
deriving DecidableEq, Repr

/-- The supabase query
`.from('friendships').select(...).or('user_id_1.eq.id,user_id_2.eq.id')`:
all friendship rows having `id` as an endpoint, in table order. -/
def friendshipsTouching (s : DBState) (id : Nat) : List FriendshipRow :=
  s.friendships.filter (fun f => f.userId1 = id || f.userId2 = id)

/-- The friend-id projection used by `getUserById`, `getAllUsers` and
`calculatePopularityScore`: map each incident friendship row to its
other endpoint (`f.user_id_1 === id ? f.user_id_2 : f.user_id_1`). -/
def friendsOf (s : DBState) (userId : Nat) : List Nat :=
  (friendshipsTouching s userId).map
    (fun f => if f.userId1 = userId then f.userId2 else f.userId1)

/-- `friendIds` as computed inside `calculatePopularityScore`
(`src/backend/src/database/schema.ts`): the friend projection with the
user's own id additionally filtered out. -/
def friendIdsOf (s : DBState) (userId : Nat) : List Nat :=
  (friendsOf s userId).filter (fun i => i ≠ userId)

/-- The user's hobby ids: `user_hobbies` rows with `user_id = userId`,
projected to `hobby_id`, in table order. -/
def hobbyIdsOf (s : DBState) (userId : Nat) : List Nat :=
  (s.userHobbies.filter (fun uh => uh.userId = userId)).map (fun uh => uh.hobbyId)

/-- `calculatePopularityScore` (`src/backend/src/database/schema.ts`,
lines 4–36): `friendCount + sharedHobbyCount * 0.5`, where
`sharedHobbyCount` is computed only when the user has at least one
friend and at least one hobby, as the number of the user's hobby ids
that also occur among the hobby ids of any friend. -/
def calculatePopularityScore (s : DBState) (userId : Nat) : ℚ :=
  let friendIds := friendIdsOf s userId
  let friendCount := friendIds.length
  let userHobbyIds := hobbyIdsOf s userId
  let sharedHobbyCount :=
    if friendIds.length > 0 ∧ userHobbyIds.length > 0 then
      let friendsHobbyIds :=
        (s.userHobbies.filter (fun uh => friendIds.contains uh.userId)).map
          (fun uh => uh.hobbyId)
      (userHobbyIds.filter (fun i => friendsHobbyIds.contains i)).length
    else 0
  (friendCount : ℚ) + (sharedHobbyCount : ℚ) * (1/2)

/-- The aggregated user view returned by `getUserById` / `getAllUsers`
(`User` in `src/backend/src/types.ts`). -/
structure UserView where
  id : Nat
  username : String
  age : Int
  hobbies : List String
  friends : List Nat
  createdAt : Nat
  popularityScore : ℚ
deriving DecidableEq, Repr

/-- The hobby names of a user: the `user_hobbies` join to
`hobbies(name)` used by `getUserById`/`getAllUsers`, in table order. -/
def hobbyNamesOf (s : DBState) (id : Nat) : List String :=
  (s.userHobbies.filter (fun uh => uh.userId = id)).filterMap
    (fun uh => (s.hobbies.find? (fun h => h.id = uh.hobbyId)).map (fun h => h.name))

/-- The per-user aggregation shared by `getUserById` and `getAllUsers`
(`src/backend/src/services/userService.ts`): hobbies from the join,
friends as the other endpoint of each incident friendship row, and the
recomputed popularity score. -/
def userViewOf (s : DBState) (u : UserRow) : UserView :=
  { id := u.id
    username := u.username
    age := u.age
    hobbies := hobbyNamesOf s u.id
    friends := friendsOf s u.id
    createdAt := u.createdAt
    popularityScore := calculatePopularityScore s u.id }

/-- `getUserById` (`userService.ts` lines 55–92): `.eq('id', id).single()`
then the aggregation; `null` when the row is absent. -/
def getUserById (s : DBState) (id : Nat) : Option UserView :=
  (s.users.find? (fun u => u.id = id)).map (userViewOf s)

/-- `getAllUsers` (`userService.ts` lines 9–53):
`.order('created_at', { ascending: false })` then the same per-user
aggregation, preserving the sorted order. -/
def getAllUsers (s : DBState) : List UserView :=
  (s.users.mergeSort (fun a b => decide (b.createdAt ≤ a.createdAt))).map (userViewOf s)

/-- `createUserSchema` (`src/api/src/validation.ts`): zod
`z.string().min(2).max(50).regex(/^[a-zA-Z0-9_]+$/)` for the username and
`z.number().int().min(1).max(150)` for the age.  All zod bounds,
including `.max(150)`, are inclusive. -/
def createUserSchemaAccepts (username : String) (age : Int) : Bool :=
  decide (2 ≤ username.length) && decide (username.length ≤ 50) &&
  (username.length > 0 && username.toList.all (fun c => c.isAlphanum || c = '_')) &&
  decide (1 ≤ age) && decide (age ≤ 150)

/-- `createUser` (`userService.ts` lines 94–121): validate, reject a
taken username, insert a fresh row, then re-read it with `getUserById`.
`newId` stands for the generated uuid and `now` for the database's
`created_at` default. -/
def createUser (s : DBState) (username : String) (age : Int) (newId now : Nat) :
    Except SvcError (DBState × UserView) :=
  if ¬ createUserSchemaAccepts username age then .error .validationFailed
  else if (s.users.find? (fun u => u.username = username)).isSome then
    .error .usernameExists
  else
    let s' : DBState :=
      { s with users :=
          s.users ++ [{ id := newId, username := username, age := age, createdAt := now }] }
    match getUserById s' newId with
    | none => .error .createFailed
    | some v => .ok (s', v)

/-- `deleteUser` (`userService.ts` lines 166–191): `NotFound` when the
user is absent, `activeFriendships` when any friendship row touches the
user; otherwise delete the user row, with the schema's
`ON DELETE CASCADE` removing the user's hobby links (and any incident
friendships, of which there are none at that point). -/
def deleteUser (s : DBState) (id : Nat) : Except SvcError DBState :=
  if (getUserById s id).isNone then .error .userNotFound
  else if (friendshipsTouching s id).length > 0 then .error .activeFriendships
  else
    .ok { s with
      users := s.users.filter (fun u => u.id ≠ id)
      userHobbies := s.userHobbies.filter (fun uh => uh.userId ≠ id)
      friendships := s.friendships.filter (fun f => f.userId1 ≠ id && f.userId2 ≠ id) }

/-- `[id1, id2] = userId1 < userId2 ? [userId1, userId2] : [userId2, userId1]`. -/
def normalizePair (a b : Nat) : Nat × Nat := if a < b then (a, b) else (b, a)

/-- The record returned by `createFriendship`. -/
structure FriendshipResult where
  id : Nat
  userId1 : Nat
  userId2 : Nat
deriving DecidableEq, Repr

/-- `createFriendship` (`userService.ts` lines 193–237), with the
source's exact check order: normalize the pair, check both users exist,
check the normalized pair is not already linked, check against
self-friendship, then insert. -/
def createFriendship (s : DBState) (userId1 userId2 newId : Nat) :
    Except SvcError (DBState × FriendshipResult) :=
  let p := normalizePair userId1 userId2
  let id1 := p.1
  let id2 := p.2
  if (getUserById s id1).isNone || (getUserById s id2).isNone then
    .error .bothUsersNotFound
  else if (s.friendships.find? (fun f => f.userId1 = id1 && f.userId2 = id2)).isSome then
    .error .friendshipExists
  else if id1 = id2 then .error .selfFriendship
  else
    .ok ({ s with friendships :=
            s.friendships ++ [{ id := newId, userId1 := id1, userId2 := id2 }] },
         { id := newId, userId1 := id1, userId2 := id2 })

/-- `removeFriendship` (`userService.ts` lines 239–250): normalize the
pair and issue a supabase `delete().eq(...).eq(...)`.  The client
reports an error only on a storage failure; a delete matching zero rows
succeeds with no error, so the `'Friendship not found'` throw is
unreachable in normal operation and the call always succeeds. -/
def removeFriendship (s : DBState) (userId1 userId2 : Nat) :
    Except SvcError DBState :=
  let p := normalizePair userId1 userId2
  .ok { s with friendships :=
        s.friendships.filter (fun f => ¬ (f.userId1 = p.1 && f.userId2 = p.2)) }

/-- A node of the graph projection (`GraphNode` in `types.ts`). -/
structure GraphNode where
  id : Nat
  username : String
  age : Int
  popularityScore : ℚ
  hobbies : List String
deriving DecidableEq, Repr

/-- An edge of the graph projection (`GraphEdge` in `types.ts`):
`source = user_id_1`, `target = user_id_2`. -/
structure GraphEdge where
  id : Nat
  source : Nat
  target : Nat
deriving DecidableEq, Repr

/-- The graph projection (`GraphData` in `types.ts`). -/
structure GraphData where
  nodes : List GraphNode
  edges : List GraphEdge
deriving DecidableEq, Repr

/-- `getGraphData` (`userService.ts` lines 252–280): nodes from
`getAllUsers` in order, edges from every friendship row with the stored
orientation. -/
def getGraphData (s : DBState) : GraphData :=
  { nodes := (getAllUsers s).map (fun u =>
      { id := u.id, username := u.username, age := u.age,
        popularityScore := u.popularityScore, hobbies := u.hobbies })
    edges := s.friendships.map (fun f =>
      { id := f.id, source := f.userId1, target := f.userId2 }) }

/-- `addHobbyToUser` (`userService.ts` lines 282–330), the service-layer
variant: find-or-create the hobby, then fail with
`'Hobby already assigned to user'` if the link already exists.  This
method is not called by any route. -/
def addHobbyToUser (s : DBState) (userId : Nat) (hobbyName : String)
    (newHobbyId : Nat) : Except SvcError DBState :=
  if (getUserById s userId).isNone then .error .userNotFound
  else
    let q : Nat × DBState :=
      match s.hobbies.find? (fun h => h.name = hobbyName) with
      | some h => (h.id, s)
      | none => (newHobbyId,
          { s with hobbies := s.hobbies ++ [{ id := newHobbyId, name := hobbyName }] })
    if q.2.userHobbies.any (fun uh => uh.userId = userId && uh.hobbyId = q.1) then
      .error .hobbyAssigned
    else
      .ok { q.2 with userHobbies :=
            q.2.userHobbies ++ [{ userId := userId, hobbyId := q.1 }] }

/-- `POST /users/:id/hobbies` (`src/api/src/routes/api.ts` lines
274–305), the route actually wired to hobby attachment: find-or-create
the hobby by name, then
`INSERT OR IGNORE INTO user_hobbies (user_id, hobby_id)` — the insert is
skipped when the composite primary key already exists — and respond with
success. -/
def routeAddHobby (s : DBState) (userId : Nat) (hobbyName : String)
    (newHobbyId : Nat) : DBState :=
  let q : Nat × DBState :=
    match s.hobbies.find? (fun h => h.name = hobbyName) with
    | some h => (h.id, s)
    | none => (newHobbyId,
        { s with hobbies := s.hobbies ++ [{ id := newHobbyId, name := hobbyName }] })
  if q.2.userHobbies.any (fun uh => uh.userId = userId && uh.hobbyId = q.1) then q.2
  else { q.2 with userHobbies := q.2.userHobbies ++ [{ userId := userId, hobbyId := q.1 }] }

/-- The schema invariants of the relational store
(`supabase/migrations/...sql`): unique ids and names, composite primary
key on `user_hobbies`, foreign keys, and the friendship constraints
`user_id_1 < user_id_2` and `UNIQUE (user_id_1, user_id_2)`. -/
structure WF (s : DBState) : Prop where
  usersNodup : (s.users.map UserRow.id).Nodup
  hobbyIdsNodup : (s.hobbies.map HobbyRow.id).Nodup
  hobbyNamesNodup : (s.hobbies.map HobbyRow.name).Nodup
  linksNodup : (s.userHobbies.map (fun uh => (uh.userId, uh.hobbyId))).Nodup
  linkUserFK : ∀ uh ∈ s.userHobbies, uh.userId ∈ s.users.map UserRow.id
  linkHobbyFK : ∀ uh ∈ s.userHobbies, uh.hobbyId ∈ s.hobbies.map HobbyRow.id
  edgeNorm : ∀ f ∈ s.friendships, f.userId1 < f.userId2
  edgePairsNodup : (s.friendships.map (fun f => (f.userId1, f.userId2))).Nodup
  edgeFK1 : ∀ f ∈ s.friendships, f.userId1 ∈ s.users.map UserRow.id
  edgeFK2 : ∀ f ∈ s.friendships, f.userId2 ∈ s.users.map UserRow.id

/-- Spec notion `F(U)`: the distinct direct friends of `u`. -/
def distinctFriends (s : DBState) (u : Nat) : List Nat :=
  (friendsOf s u).dedup

/-- Spec notion `sharedHobbyCount(U)`: the distinct hobby ids attached
to `u` that are also attached to at least one friend of `u`. -/
def specSharedHobbies (s : DBState) (u : Nat) : List Nat :=
  (hobbyIdsOf s u).dedup.filter
    (fun h => (distinctFriends s u).any (fun fr => (hobbyIdsOf s fr).contains h))

end SocialGraph

namespace SocialGraph

/-! ### Consequences of the store invariants -/

lemma mem_friendshipsTouching {s : DBState} {u : Nat} {f : FriendshipRow} :
    f ∈ friendshipsTouching s u ↔ f ∈ s.friendships ∧ (f.userId1 = u ∨ f.userId2 = u) := by
  simp [friendshipsTouching]

lemma friendsOf_nodup {s : DBState} (hwf : WF s) (u : Nat) :
    (friendsOf s u).Nodup := by
  have hsub : ((friendshipsTouching s u).map (fun f => (f.userId1, f.userId2))).Sublist
      (s.friendships.map (fun f => (f.userId1, f.userId2))) :=
    List.Sublist.map _ (List.filter_sublist _)
  have hpairs : ((friendshipsTouching s u).map (fun f => (f.userId1, f.userId2))).Nodup :=
    List.Nodup.sublist hsub hwf.edgePairsNodup
  have hrows : (friendshipsTouching s u).Nodup := hpairs.of_map _
  apply List.Nodup.map_on ?_ hrows
  intro f hf g hg heq
  have hf' := mem_friendshipsTouching.mp hf
  have hg' := mem_friendshipsTouching.mp hg
  have hnf := hwf.edgeNorm f hf'.1
  have hng := hwf.edgeNorm g hg'.1
  have hpair : (f.userId1, f.userId2) = (g.userId1, g.userId2) := by
    by_cases h1 : f.userId1 = u <;> by_cases h2 : g.userId1 = u <;>
      simp only [h1, h2, if_pos, if_neg, ite_true, ite_false] at heq
    · exact Prod.ext (h1.trans h2.symm) heq
    · rcases hg'.2 with hg2 | hg2
      · exact absurd hg2 h2
      · omega
    · rcases hf'.2 with hf2 | hf2
      · exact absurd hf2 h1
      · omega
    · rcases hf'.2 with hf2 | hf2
      · exact absurd hf2 h1
      · rcases hg'.2 with hg2 | hg2
        · exact absurd hg2 h2
        · exact Prod.ext heq (hf2.trans hg2.symm)
  exact List.inj_on_of_nodup_map hpairs hf hg hpair

lemma friendsOf_ne_self {s : DBState} (hwf : WF s) (u : Nat) :
    ∀ x ∈ friendsOf s u, x ≠ u := by
  intro x hx
  obtain ⟨f, hf, rfl⟩ := List.mem_map.mp hx
  have hf' := mem_friendshipsTouching.mp hf
  have hn := hwf.edgeNorm f hf'.1
  by_cases h1 : f.userId1 = u <;> simp only [h1, ite_true, ite_false, if_pos, if_neg] <;> omega

lemma friendIdsOf_eq {s : DBState} (hwf : WF s) (u : Nat) :
    friendIdsOf s u = friendsOf s u := by
  rw [friendIdsOf, List.filter_eq_self]
  intro a ha
  simpa using friendsOf_ne_self hwf u a ha

lemma distinctFriends_eq {s : DBState} (hwf : WF s) (u : Nat) :
    distinctFriends s u = friendsOf s u :=
  List.Nodup.dedup (friendsOf_nodup hwf u)

lemma hobbyIdsOf_nodup {s : DBState} (hwf : WF s) (u : Nat) :
    (hobbyIdsOf s u).Nodup := by
  have hsub : ((s.userHobbies.filter (fun uh => uh.userId = u)).map
      (fun uh => (uh.userId, uh.hobbyId))).Sublist
      (s.userHobbies.map (fun uh => (uh.userId, uh.hobbyId))) :=
    List.Sublist.map _ (List.filter_sublist _)
  have hpairs := List.Nodup.sublist hsub hwf.linksNodup
  have hrows : (s.userHobbies.filter (fun uh => uh.userId = u)).Nodup := hpairs.of_map _
  apply List.Nodup.map_on ?_ hrows
  intro x hx y hy heq
  have hxu : x.userId = u := by simpa using (List.mem_filter.mp hx).2
  have hyu : y.userId = u := by simpa using (List.mem_filter.mp hy).2
  exact List.inj_on_of_nodup_map hpairs hx hy (Prod.ext (hxu.trans hyu.symm) heq)

lemma friendshipsTouching_eq_nil_of_absent {s : DBState} (hwf : WF s) {u : Nat}
    (h : u ∉ s.users.map UserRow.id) : friendshipsTouching s u = [] := by
  rw [friendshipsTouching, List.filter_eq_nil_iff]
  intro f hf
  simp only [Bool.or_eq_true, decide_eq_true_eq, not_or]
  constructor
  · intro h1; exact h (h1 ▸ hwf.edgeFK1 f hf)
  · intro h2; exact h (h2 ▸ hwf.edgeFK2 f hf)

lemma userHobbies_eq_nil_of_absent {s : DBState} (hwf : WF s) {u : Nat}
    (h : u ∉ s.users.map UserRow.id) :
    s.userHobbies.filter (fun uh => uh.userId = u) = [] := by
  rw [List.filter_eq_nil_iff]
  intro uh huh
  simp only [decide_eq_true_eq]
  intro he
  exact h (he ▸ hwf.linkUserFK uh huh)

end SocialGraph
deriving instance DecidableEq for Except

namespace SocialGraph

/-! ### C7: create-user validation bounds (age 150 slips through) -/

/-- C7: the claim says any age outside 1–149 is rejected with a
validation error, but the zod schema's `.max(150)` bound is inclusive,
so `createUserSchema` accepts `{username: "ab", age: 150}` even though
its own error message reads `'Age must be less than 150'` and the
database `CHECK (age < 150)` would reject the row.  The other bounds of
the claim do hold: age 151 and 0, a 1-character name, and a name with a
disallowed character are all rejected. -/
theorem c7_schema_accepts_age_150 :
    createUserSchemaAccepts "ab" 150 = true ∧
    createUserSchemaAccepts "ab" 149 = true ∧
    createUserSchemaAccepts "ab" 151 = false ∧
    createUserSchemaAccepts "ab" 0 = false ∧
    createUserSchemaAccepts "a" 25 = false ∧
    createUserSchemaAccepts "a!" 25 = false ∧
    createUserSchemaAccepts "ab" 1 = true := by decide

/-! ### C4: unlinking a non-existent edge does not report NotFound -/

/-- The C4 failing input: users 1 and 2 exist and no friendship edge
exists between them. -/
def c4State : DBState :=
  ⟨[⟨1, "alice", 25, 0⟩, ⟨2, "bob", 30, 1⟩], [], [], []⟩

/-- C4: the claim (and the spec) say `Unlink` fails with `NotFound` when
no edge exists for the normalized pair, but the supabase delete reports
an error only on a storage failure — a delete matching zero rows
succeeds — so `removeFriendship` on a missing edge silently succeeds and
leaves the store unchanged, and the code's `'Friendship not found'`
throw is unreachable. -/
theorem c4_unlink_missing_edge_succeeds :
    removeFriendship c4State 1 2 = Except.ok c4State ∧
    removeFriendship c4State 1 2 ≠ Except.error SvcError.friendshipNotFound := by decide

/-! ### C3: Link(A,A) -/

/-- C3 counterexample: on the empty store (no user with id 1 exists),
`Link(1,1)` fails with the not-found error — the existence check runs
before the self-link check — not with `SelfLink` as the claim states for
every id. -/
theorem c3_counterexample :
    createFriendship ⟨[], [], [], []⟩ 1 1 100 ≠ Except.error SvcError.selfFriendship ∧
    createFriendship ⟨[], [], [], []⟩ 1 1 100 = Except.error SvcError.bothUsersNotFound := by
  decide

/-- C3 amended: `Link(A,A)` always fails and never creates an edge; it
fails with `SelfLink` when a user with id A exists, and with the
not-found error when no such user exists. -/
theorem c3_self_link (s : DBState) (hwf : WF s) (a nid : Nat) :
    createFriendship s a a nid =
      Except.error (if (getUserById s a).isSome then SvcError.selfFriendship
                    else SvcError.bothUsersNotFound) := by
  have hnorm : normalizePair a a = (a, a) := by simp [normalizePair]
  rw [createFriendship, hnorm]
  rcases h : getUserById s a with _ | v
  · simp [h]
  · have hfind : s.friendships.find? (fun f => f.userId1 = a && f.userId2 = a) = none := by
      rw [List.find?_eq_none]
      intro f hf
      have := hwf.edgeNorm f hf
      simp only [Bool.and_eq_true, decide_eq_true_eq, not_and]
      omega
    simp [h, hfind]

/-- A store holding exactly one user, with id 1. -/
def c3State : DBState := ⟨[⟨1, "alice", 25, 0⟩], [], [], []⟩

theorem c3_self_link_witness :
    WF c3State ∧
    createFriendship c3State 1 1 5 =
      Except.error (if (getUserById c3State 1).isSome then SvcError.selfFriendship
                    else SvcError.bothUsersNotFound) :=
  ⟨by constructor <;> decide, c3_self_link c3State (by constructor <;> decide) 1 5⟩

end SocialGraph
namespace SocialGraph

/-! ### C10: list-all-users ordering -/

/-- C10: `getAllUsers` orders users by creation timestamp descending
(newest first): its output is pairwise non-increasing in `createdAt`, it
is a permutation of the user table, and the node list of the graph
projection carries the same users in the same order. -/
theorem c10_users_ordered_newest_first (s : DBState) :
    List.Pairwise (fun a b : UserView => b.createdAt ≤ a.createdAt) (getAllUsers s) ∧
    List.Perm ((getAllUsers s).map UserView.id) (s.users.map UserRow.id) ∧
    (getGraphData s).nodes.map GraphNode.id = (getAllUsers s).map UserView.id := by
  refine ⟨?_, ?_, ?_⟩
  · rw [getAllUsers]
    have htrans : ∀ a b c : UserRow, decide (b.createdAt ≤ a.createdAt) = true →
        decide (c.createdAt ≤ b.createdAt) = true →
        decide (c.createdAt ≤ a.createdAt) = true := by
      intro a b c hab hbc
      simp only [decide_eq_true_eq] at *
      omega
    have htotal : ∀ a b : UserRow,
        (decide (b.createdAt ≤ a.createdAt) || decide (a.createdAt ≤ b.createdAt)) = true := by
      intro a b
      simpa using Nat.le_total b.createdAt a.createdAt
    have hs := List.sorted_mergeSort htrans htotal s.users
    apply List.Pairwise.map (userViewOf s) ?_ hs
    intro a b hab
    simpa [userViewOf] using hab
  · rw [getAllUsers, List.map_map]
    have hperm := List.mergeSort_perm s.users
      (fun a b => decide (b.createdAt ≤ a.createdAt))
    have hcomp : (UserView.id ∘ userViewOf s) = UserRow.id := by
      funext u
      rfl
    rw [hcomp]
    exact hperm.map _
  · rw [getGraphData, List.map_map]
    rfl

/-! ### C6: repeated hobby attach is a no-op success -/

/-- C6: when the hobby exists and the user-hobby link already exists,
the attach-hobby route leaves the store unchanged (the
`INSERT OR IGNORE` skips the duplicate composite key) and responds with
success, and exactly one link for the pair remains. -/
theorem c6_attach_hobby_idempotent (s : DBState) (hwf : WF s) (u nid : Nat)
    (hobbyName : String) (h : HobbyRow)
    (hfind : s.hobbies.find? (fun x => x.name = hobbyName) = some h)
    (hlink : (⟨u, h.id⟩ : UserHobbyRow) ∈ s.userHobbies) :
    routeAddHobby s u hobbyName nid = s ∧
    (s.userHobbies.filter (fun uh => uh.userId = u && uh.hobbyId = h.id)).length = 1 := by
  constructor
  · rw [routeAddHobby, hfind]
    have hany : s.userHobbies.any (fun uh => uh.userId = u && uh.hobbyId = h.id) = true := by
      rw [List.any_eq_true]
      exact ⟨⟨u, h.id⟩, hlink, by simp⟩
    simp [hany]
  · have hrowsN : s.userHobbies.Nodup := hwf.linksNodup.of_map _
    have hcount := List.count_eq_one_of_mem hrowsN hlink
    rw [List.count_eq_countP] at hcount
    rw [← List.countP_eq_length_filter, ← hcount]
    apply List.countP_congr
    intro uh _
    cases uh with
    | mk a b =>
      by_cases h1 : a = u <;> by_cases h2 : b = h.id <;>
        simp [h1, h2, beq_iff_eq, UserHobbyRow.mk.injEq]

/-- A store holding one user (id 1), one hobby (id 7, "Reading") and the
link between them. -/
def c6State : DBState :=
  ⟨[⟨1, "alice", 25, 0⟩], [⟨7, "Reading"⟩], [⟨1, 7⟩], []⟩

theorem c6_attach_hobby_idempotent_witness :
    WF c6State ∧
    c6State.hobbies.find? (fun x => x.name = "Reading") = some ⟨7, "Reading"⟩ ∧
    (⟨1, 7⟩ : UserHobbyRow) ∈ c6State.userHobbies ∧
    (routeAddHobby c6State 1 "Reading" 99 = c6State ∧
     (c6State.userHobbies.filter
        (fun uh => uh.userId = 1 && uh.hobbyId = (7 : Nat))).length = 1) :=
  ⟨by constructor <;> decide, by decide, by decide,
   c6_attach_hobby_idempotent c6State (by constructor <;> decide) 1 99 "Reading"
     ⟨7, "Reading"⟩ (by decide) (by decide)⟩

end SocialGraph
namespace SocialGraph

/-! ### C2: delete-user precondition and effect -/

/-- C2: `Delete(id)` fails with the active-friendships error exactly
when some friendship row touches `id` (on any failure the store is
untouched — an `Except.error` carries no successor state); when the user
exists and no edge touches it, the delete succeeds and removes the user
row together with that user's hobby links, leaving the friendship table
unchanged (no cascade); when the user is absent it fails with
`NotFound`. -/
theorem c2_delete_user (s : DBState) (hwf : WF s) (id : Nat) :
    (deleteUser s id = Except.error SvcError.activeFriendships ↔
      friendshipsTouching s id ≠ []) ∧
    ((getUserById s id).isSome → friendshipsTouching s id = [] →
      deleteUser s id = Except.ok
        ⟨s.users.filter (fun u => u.id ≠ id), s.hobbies,
         s.userHobbies.filter (fun uh => uh.userId ≠ id), s.friendships⟩) ∧
    ((getUserById s id).isNone → deleteUser s id = Except.error SvcError.userNotFound) := by
  refine ⟨⟨?_, ?_⟩, ?_, ?_⟩
  · intro he
    rw [deleteUser] at he
    by_cases h1 : (getUserById s id).isNone
    · simp [h1] at he
    · by_cases h2 : (friendshipsTouching s id).length > 0
      · intro hnil
        rw [hnil] at h2
        simp at h2
      · simp [h1, h2] at he
  · intro hne
    have hlen : 0 < (friendshipsTouching s id).length := List.length_pos.mpr hne
    have hex : ¬ (getUserById s id).isNone = true := by
      obtain ⟨f, hf⟩ := List.exists_mem_of_ne_nil _ hne
      have hf' := mem_friendshipsTouching.mp hf
      have hid : id ∈ s.users.map UserRow.id := by
        rcases hf'.2 with h | h
        · exact h ▸ hwf.edgeFK1 f hf'.1
        · exact h ▸ hwf.edgeFK2 f hf'.1
      obtain ⟨u, hu, hui⟩ := List.mem_map.mp hid
      simp [getUserById]
      exact ⟨u, hu, hui⟩
    rw [deleteUser, if_neg hex, if_pos hlen]
  · intro hsome hnil
    obtain ⟨v, hv⟩ := Option.isSome_iff_exists.mp hsome
    have h1 : ¬ (getUserById s id).isNone = true := by simp [hv]
    have h2 : ¬ (friendshipsTouching s id).length > 0 := by
      rw [hnil]
      simp
    rw [deleteUser, if_neg h1, if_neg h2]
    have hfr : s.friendships.filter (fun f => f.userId1 ≠ id && f.userId2 ≠ id) =
        s.friendships := by
      rw [List.filter_eq_self]
      intro f hf
      have : f ∉ friendshipsTouching s id := by
        rw [hnil]
        exact List.not_mem_nil f
      rw [mem_friendshipsTouching] at this
      push_neg at this
      have hne2 := this hf
      simp only [Bool.and_eq_true, decide_eq_true_eq]
      tauto
    rw [hfr]
  · intro hnone
    rw [deleteUser, if_pos hnone]

end SocialGraph
namespace SocialGraph

/-- A store with users 1 and 2, one hobby link for user 1, and one
friendship edge (1,2). -/
def c2State : DBState :=
  ⟨[⟨1, "alice", 25, 0⟩, ⟨2, "bob", 30, 1⟩], [⟨7, "Reading"⟩], [⟨1, 7⟩],
   [⟨100, 1, 2⟩]⟩

theorem c2_delete_user_witness :
    WF c2State ∧
    ((deleteUser c2State 1 = Except.error SvcError.activeFriendships ↔
        friendshipsTouching c2State 1 ≠ []) ∧
     ((getUserById c2State 1).isSome → friendshipsTouching c2State 1 = [] →
       deleteUser c2State 1 = Except.ok
         ⟨c2State.users.filter (fun u => u.id ≠ 1), c2State.hobbies,
          c2State.userHobbies.filter (fun uh => uh.userId ≠ 1), c2State.friendships⟩) ∧
     ((getUserById c2State 1).isNone → deleteUser c2State 1 = Except.error SvcError.userNotFound)) :=
  ⟨by constructor <;> decide, c2_delete_user c2State (by constructor <;> decide) 1⟩

/-! ### C8: create followed by get -/

/-- C8: for every valid (name, age) whose name is not already taken and
a fresh id, `Create` succeeds, appends exactly the new user row, and the
re-read (`Get`) of the returned id yields the aggregated view with the
given name and age, empty friends, empty hobbies and popularity score
0. -/
theorem c8_create_then_get (s : DBState) (hwf : WF s) (username : String) (age : Int)
    (newId now : Nat)
    (hvalid : createUserSchemaAccepts username age = true)
    (hfree : s.users.find? (fun u => u.username = username) = none)
    (hfresh : newId ∉ s.users.map UserRow.id) :
    createUser s username age newId now = Except.ok
      ({ s with users := s.users ++ [⟨newId, username, age, now⟩] },
       ⟨newId, username, age, [], [], now, 0⟩) ∧
    getUserById { s with users := s.users ++ [⟨newId, username, age, now⟩] } newId =
      some ⟨newId, username, age, [], [], now, 0⟩ := by
  have htouch : friendshipsTouching s newId = [] :=
    friendshipsTouching_eq_nil_of_absent hwf hfresh
  have hlinks : s.userHobbies.filter (fun uh => uh.userId = newId) = [] :=
    userHobbies_eq_nil_of_absent hwf hfresh
  have hget : getUserById { s with users := s.users ++ [⟨newId, username, age, now⟩] } newId =
      some ⟨newId, username, age, [], [], now, 0⟩ := by
    rw [getUserById]
    have hnone : s.users.find? (fun u => u.id = newId) = none := by
      rw [List.find?_eq_none]
      intro u hu
      simp only [decide_eq_true_eq]
      intro he
      exact hfresh (List.mem_map.mpr ⟨u, hu, he⟩)
    rw [List.find?_append, hnone, Option.none_or]
    have hone : List.find? (fun u => u.id = newId) [(⟨newId, username, age, now⟩ : UserRow)] =
        some ⟨newId, username, age, now⟩ := by simp
    rw [hone, Option.map_some']
    congr 1
    rw [userViewOf]
    have hhob : hobbyNamesOf { s with users := s.users ++ [⟨newId, username, age, now⟩] } newId
        = [] := by
      rw [hobbyNamesOf]
      show (s.userHobbies.filter (fun uh => uh.userId = newId)).filterMap _ = []
      rw [hlinks, List.filterMap_nil]
    have hfr : friendsOf { s with users := s.users ++ [⟨newId, username, age, now⟩] } newId
        = [] := by
      rw [friendsOf]
      show ((friendshipsTouching s newId).map _) = []
      rw [htouch, List.map_nil]
    have hscore : calculatePopularityScore
        { s with users := s.users ++ [⟨newId, username, age, now⟩] } newId = 0 := by
      rw [calculatePopularityScore]
      have hids : friendIdsOf { s with users := s.users ++ [⟨newId, username, age, now⟩] } newId
          = [] := by
        rw [friendIdsOf, hfr, List.filter_nil]
      rw [hids]
      norm_num
    rw [hhob, hfr, hscore]
  refine ⟨?_, hget⟩
  rw [createUser, if_neg (by simp [hvalid]), if_neg (by simp [hfree])]
  simp only [hget]

/-- The empty store. -/
def c8State : DBState := ⟨[], [], [], []⟩

theorem c8_create_then_get_witness :
    WF c8State ∧ createUserSchemaAccepts "ab" 25 = true ∧
    c8State.users.find? (fun u => u.username = "ab") = none ∧
    (1 : Nat) ∉ c8State.users.map UserRow.id ∧
    (createUser c8State "ab" 25 1 0 = Except.ok
       ({ c8State with users := c8State.users ++ [⟨1, "ab", 25, 0⟩] },
        ⟨1, "ab", 25, [], [], 0, 0⟩) ∧
     getUserById { c8State with users := c8State.users ++ [⟨1, "ab", 25, 0⟩] } 1 =
       some ⟨1, "ab", 25, [], [], 0, 0⟩) :=
  ⟨by constructor <;> decide, by decide, by decide, by decide,
   c8_create_then_get c8State (by constructor <;> decide) "ab" 25 1 0
     (by decide) (by decide) (by decide)⟩

end SocialGraph
namespace SocialGraph

lemma hobbyNamesOf_nodup {s : DBState} (hwf : WF s) (u : Nat) :
    (hobbyNamesOf s u).Nodup := by
  have hfact : hobbyNamesOf s u = (hobbyIdsOf s u).filterMap
      (fun hid => (s.hobbies.find? (fun h => h.id = hid)).map (fun h => h.name)) := by
    rw [hobbyNamesOf, hobbyIdsOf, List.filterMap_map]
    rfl
  rw [hfact]
  refine List.Nodup.filterMap ?_ (hobbyIdsOf_nodup hwf u)
  intro a a' b hb hb'
  obtain ⟨r, hr, hrn⟩ := Option.map_eq_some'.mp hb
  obtain ⟨r', hr', hrn'⟩ := Option.map_eq_some'.mp hb'
  have hrm := List.mem_of_find?_eq_some hr
  have hrm' := List.mem_of_find?_eq_some hr'
  have hra : r.id = a := by simpa using List.find?_some hr
  have hra' : r'.id = a' := by simpa using List.find?_some hr'
  have : r = r' :=
    List.inj_on_of_nodup_map hwf.hobbyNamesNodup hrm hrm' (hrn.trans hrn'.symm)
  rw [← hra, ← hra', this]

/-! ### C9: aggregated view lists -/

/-- A store where user 1 has friends 3, 2, 4 (in that table order) and
hobbies named "c", "a" (in that table order). -/
def c9State : DBState :=
  ⟨[⟨1, "u1", 20, 0⟩, ⟨2, "u2", 20, 0⟩, ⟨3, "u3", 20, 0⟩, ⟨4, "u4", 20, 0⟩],
   [⟨7, "c"⟩, ⟨8, "a"⟩], [⟨1, 7⟩, ⟨1, 8⟩],
   [⟨10, 1, 3⟩, ⟨11, 1, 2⟩, ⟨12, 1, 4⟩]⟩

/-- C9 counterexample: the aggregation never sorts — on a well-formed
store whose friendship rows for user 1 come back in the order
(1,3),(1,2),(1,4), `Get(1)` returns the friends list `[3, 2, 4]`, which
is sorted in neither direction, and the hobby names `["c", "a"]`, which
are not sorted ascending. -/
theorem c9_counterexample :
    WF c9State ∧
    (getUserById c9State 1).map UserView.friends = some [3, 2, 4] ∧
    ¬ List.Pairwise (fun a b : Nat => a ≤ b) [3, 2, 4] ∧
    ¬ List.Pairwise (fun a b : Nat => b ≤ a) [3, 2, 4] ∧
    (getUserById c9State 1).map UserView.hobbies = some ["c", "a"] :=
  ⟨by constructor <;> decide, by decide, by decide, by decide, by decide⟩

/-- C9 amended: the aggregated view's friend ids and hobby names are
lists without duplicates (thanks to the store's uniqueness invariants),
returned in storage order, not necessarily sorted. -/
theorem c9_view_lists_nodup (s : DBState) (hwf : WF s) (id : Nat) (v : UserView)
    (h : getUserById s id = some v) :
    v.friends.Nodup ∧ v.hobbies.Nodup := by
  obtain ⟨u, _, rfl⟩ := Option.map_eq_some'.mp h
  exact ⟨friendsOf_nodup hwf u.id, hobbyNamesOf_nodup hwf u.id⟩

theorem c9_view_lists_nodup_witness :
    WF c9State ∧ getUserById c9State 1 = some (userViewOf c9State ⟨1, "u1", 20, 0⟩) ∧
    ((userViewOf c9State ⟨1, "u1", 20, 0⟩).friends.Nodup ∧
     (userViewOf c9State ⟨1, "u1", 20, 0⟩).hobbies.Nodup) :=
  ⟨by constructor <;> decide, rfl,
   c9_view_lists_nodup c9State (by constructor <;> decide) 1
     (userViewOf c9State ⟨1, "u1", 20, 0⟩) rfl⟩

end SocialGraph
namespace SocialGraph

/-! ### C5: canonical orientation and AlreadyLinked -/

lemma getUserById_append_edge {s : DBState} {x : Nat} {row : FriendshipRow} :
    (getUserById { s with friendships := s.friendships ++ [row] } x).isSome =
    (getUserById s x).isSome := by
  simp [getUserById]

lemma createFriendship_ok {s : DBState} {x y lo hi nid : Nat}
    (hnorm : normalizePair x y = (lo, hi)) (hlohi : lo < hi)
    (hlo : (getUserById s lo).isSome) (hhi : (getUserById s hi).isSome)
    (hnoedge : ∀ f ∈ s.friendships, ¬ (f.userId1 = lo ∧ f.userId2 = hi)) :
    createFriendship s x y nid = Except.ok
      ({ s with friendships := s.friendships ++ [⟨nid, lo, hi⟩] }, ⟨nid, lo, hi⟩) := by
  obtain ⟨v1, hv1⟩ := Option.isSome_iff_exists.mp hlo
  obtain ⟨v2, hv2⟩ := Option.isSome_iff_exists.mp hhi
  have hfind : s.friendships.find? (fun f => f.userId1 = lo && f.userId2 = hi) = none := by
    rw [List.find?_eq_none]
    intro f hf
    have := hnoedge f hf
    simp only [Bool.and_eq_true, decide_eq_true_eq, not_and]
    tauto
  simp only [createFriendship, hnorm]
  rw [if_neg (by simp [hv1, hv2]), if_neg (by simp [hfind]),
    if_neg (Nat.ne_of_lt hlohi)]

lemma createFriendship_already_exists {s : DBState} {x y lo hi nid : Nat}
    (hnorm : normalizePair x y = (lo, hi))
    (hlo : (getUserById s lo).isSome) (hhi : (getUserById s hi).isSome)
    (hfound : (s.friendships.find? (fun f => f.userId1 = lo && f.userId2 = hi)).isSome) :
    createFriendship s x y nid = Except.error SvcError.friendshipExists := by
  obtain ⟨v1, hv1⟩ := Option.isSome_iff_exists.mp hlo
  obtain ⟨v2, hv2⟩ := Option.isSome_iff_exists.mp hhi
  simp only [createFriendship, hnorm]
  rw [if_neg (by simp [hv1, hv2]), if_pos (by simpa using hfound)]

/-- C5: for distinct existing users A and B with no edge between them in
either orientation, `Link(A,B)` and `Link(B,A)` produce the same stored
edge, normalized with the smaller id first; afterwards the graph
projection contains exactly one edge between A and B, oriented with the
smaller id as source; and a second `Link` in either argument order fails
with the already-exists error. -/
theorem c5_link_canonical (s : DBState) (hwf : WF s) (a b nid nid2 : Nat) (hab : a ≠ b)
    (ha : (getUserById s a).isSome) (hb : (getUserById s b).isSome)
    (hnoedge : ∀ f ∈ s.friendships,
      ¬ (f.userId1 = a ∧ f.userId2 = b) ∧ ¬ (f.userId1 = b ∧ f.userId2 = a)) :
    normalizePair a b = (min a b, max a b) ∧
    createFriendship s a b nid = Except.ok
      ({ s with friendships := s.friendships ++ [⟨nid, min a b, max a b⟩] },
       ⟨nid, min a b, max a b⟩) ∧
    createFriendship s b a nid = Except.ok
      ({ s with friendships := s.friendships ++ [⟨nid, min a b, max a b⟩] },
       ⟨nid, min a b, max a b⟩) ∧
    (getGraphData { s with
        friendships := s.friendships ++ [⟨nid, min a b, max a b⟩] }).edges.filter
      (fun e => (e.source = a && e.target = b) || (e.source = b && e.target = a)) =
      [⟨nid, min a b, max a b⟩] ∧
    createFriendship { s with
        friendships := s.friendships ++ [⟨nid, min a b, max a b⟩] } a b nid2 =
      Except.error SvcError.friendshipExists ∧
    createFriendship { s with
        friendships := s.friendships ++ [⟨nid, min a b, max a b⟩] } b a nid2 =
      Except.error SvcError.friendshipExists := by
  rcases Nat.lt_or_gt_of_ne hab with hlt | hgt
  case inl =>
    have hmin : min a b = a := Nat.min_eq_left (Nat.le_of_lt hlt)
    have hmax : max a b = b := Nat.max_eq_right (Nat.le_of_lt hlt)
    have hnab : normalizePair a b = (a, b) := by simp [normalizePair, hlt]
    have hnba : normalizePair b a = (a, b) := by
      simp [normalizePair, Nat.not_lt.mpr (Nat.le_of_lt hlt)]
    rw [hmin, hmax]
    have hno : ∀ f ∈ s.friendships, ¬ (f.userId1 = a ∧ f.userId2 = b) :=
      fun f hf => (hnoedge f hf).1
    have hfound : ((s.friendships ++
        [(⟨nid, a, b⟩ : FriendshipRow)]).find?
          (fun f => f.userId1 = a && f.userId2 = b)).isSome := by
      rw [List.find?_append]
      rcases h : s.friendships.find? (fun f => f.userId1 = a && f.userId2 = b) with _ | f
      · simp
      · simp
    have hsome1 : (getUserById { s with
        friendships := s.friendships ++ [(⟨nid, a, b⟩ : FriendshipRow)] } a).isSome := by
      rw [getUserById_append_edge]; exact ha
    have hsome2 : (getUserById { s with
        friendships := s.friendships ++ [(⟨nid, a, b⟩ : FriendshipRow)] } b).isSome := by
      rw [getUserById_append_edge]; exact hb
    refine ⟨by rw [hnab],
      createFriendship_ok hnab hlt ha hb hno,
      createFriendship_ok hnba hlt ha hb hno, ?_,
      createFriendship_already_exists hnab hsome1 hsome2 hfound,
      createFriendship_already_exists hnba hsome1 hsome2 hfound⟩
    rw [getGraphData]
    show ((s.friendships ++ [(⟨nid, a, b⟩ : FriendshipRow)]).map
        (fun f => ({ id := f.id, source := f.userId1, target := f.userId2 } : GraphEdge))).filter
        _ = _
    rw [List.map_append, List.filter_append]
    have hold : (s.friendships.map
        (fun f => ({ id := f.id, source := f.userId1, target := f.userId2 } : GraphEdge))).filter
        (fun e => (e.source = a && e.target = b) || (e.source = b && e.target = a)) = [] := by
      rw [List.filter_eq_nil_iff]
      intro e he
      obtain ⟨f, hf, rfl⟩ := List.mem_map.mp he
      have := hnoedge f hf
      simp only [Bool.or_eq_true, Bool.and_eq_true, decide_eq_true_eq]
      tauto
    rw [hold]
    simp [Nat.ne_of_lt hlt]
  case inr =>
    have hmin : min a b = b := Nat.min_eq_right (Nat.le_of_lt hgt)
    have hmax : max a b = a := Nat.max_eq_left (Nat.le_of_lt hgt)
    have hnab : normalizePair a b = (b, a) := by
      simp [normalizePair, Nat.not_lt.mpr (Nat.le_of_lt hgt)]
    have hnba : normalizePair b a = (b, a) := by simp [normalizePair, hgt]
    rw [hmin, hmax]
    have hno : ∀ f ∈ s.friendships, ¬ (f.userId1 = b ∧ f.userId2 = a) :=
      fun f hf => (hnoedge f hf).2
    have hfound : ((s.friendships ++
        [(⟨nid, b, a⟩ : FriendshipRow)]).find?
          (fun f => f.userId1 = b && f.userId2 = a)).isSome := by
      rw [List.find?_append]
      rcases h : s.friendships.find? (fun f => f.userId1 = b && f.userId2 = a) with _ | f
      · simp
      · simp
    have hsome1 : (getUserById { s with
        friendships := s.friendships ++ [(⟨nid, b, a⟩ : FriendshipRow)] } a).isSome := by
      rw [getUserById_append_edge]; exact ha
    have hsome2 : (getUserById { s with
        friendships := s.friendships ++ [(⟨nid, b, a⟩ : FriendshipRow)] } b).isSome := by
      rw [getUserById_append_edge]; exact hb
    refine ⟨by rw [hnab],
      createFriendship_ok hnab hgt hb ha hno,
      createFriendship_ok hnba hgt hb ha hno, ?_,
      createFriendship_already_exists hnab hsome2 hsome1 hfound,
      createFriendship_already_exists hnba hsome2 hsome1 hfound⟩
    rw [getGraphData]
    show ((s.friendships ++ [(⟨nid, b, a⟩ : FriendshipRow)]).map
        (fun f => ({ id := f.id, source := f.userId1, target := f.userId2 } : GraphEdge))).filter
        _ = _
    rw [List.map_append, List.filter_append]
    have hold : (s.friendships.map
        (fun f => ({ id := f.id, source := f.userId1, target := f.userId2 } : GraphEdge))).filter
        (fun e => (e.source = a && e.target = b) || (e.source = b && e.target = a)) = [] := by
      rw [List.filter_eq_nil_iff]
      intro e he
      obtain ⟨f, hf, rfl⟩ := List.mem_map.mp he
      have := hnoedge f hf
      simp only [Bool.or_eq_true, Bool.and_eq_true, decide_eq_true_eq]
      tauto
    rw [hold]
    simp [Nat.ne_of_lt hgt]

end SocialGraph
namespace SocialGraph

/-- A store with users 1 and 2 and no edges. -/
def c5State : DBState := ⟨[⟨1, "alice", 25, 0⟩, ⟨2, "bob", 30, 1⟩], [], [], []⟩

theorem c5_link_canonical_witness :
    WF c5State ∧ (2 : Nat) ≠ 1 ∧
    (getUserById c5State 2).isSome = true ∧ (getUserById c5State 1).isSome = true ∧
    (∀ f ∈ c5State.friendships,
      ¬ (f.userId1 = 2 ∧ f.userId2 = 1) ∧ ¬ (f.userId1 = 1 ∧ f.userId2 = 2)) ∧
    (normalizePair 2 1 = (min 2 1, max 2 1) ∧
     createFriendship c5State 2 1 50 = Except.ok
       ({ c5State with friendships := c5State.friendships ++ [⟨50, min 2 1, max 2 1⟩] },
        ⟨50, min 2 1, max 2 1⟩) ∧
     createFriendship c5State 1 2 50 = Except.ok
       ({ c5State with friendships := c5State.friendships ++ [⟨50, min 2 1, max 2 1⟩] },
        ⟨50, min 2 1, max 2 1⟩) ∧
     (getGraphData { c5State with
         friendships := c5State.friendships ++ [⟨50, min 2 1, max 2 1⟩] }).edges.filter
       (fun e => (e.source = 2 && e.target = 1) || (e.source = 1 && e.target = 2)) =
       [⟨50, min 2 1, max 2 1⟩] ∧
     createFriendship { c5State with
         friendships := c5State.friendships ++ [⟨50, min 2 1, max 2 1⟩] } 2 1 51 =
       Except.error SvcError.friendshipExists ∧
     createFriendship { c5State with
         friendships := c5State.friendships ++ [⟨50, min 2 1, max 2 1⟩] } 1 2 51 =
       Except.error SvcError.friendshipExists) :=
  ⟨by constructor <;> decide, by decide, by decide, by decide, by decide,
   c5_link_canonical c5State (by constructor <;> decide) 2 1 50 51
     (by decide) (by decide) (by decide) (by decide)⟩

end SocialGraph

namespace SocialGraph

/-! ### C1: the popularity score -/

/-- C1: on a well-formed store, `calculatePopularityScore` equals the
number of distinct direct friends plus one half times the number of
distinct hobby ids shared with at least one friend (each shared hobby
counted once however many friends share it); in particular a user with
no friends scores 0 regardless of hobbies. -/
theorem c1_popularity_score (s : DBState) (hwf : WF s) (u : Nat) :
    calculatePopularityScore s u =
      ((distinctFriends s u).length : ℚ) +
        ((specSharedHobbies s u).length : ℚ) * (1/2) ∧
    (distinctFriends s u = [] → calculatePopularityScore s u = 0) := by
  have hI : friendIdsOf s u = friendsOf s u := friendIdsOf_eq hwf u
  have hD : distinctFriends s u = friendsOf s u := distinctFriends_eq hwf u
  have hHN : (hobbyIdsOf s u).Nodup := hobbyIdsOf_nodup hwf u
  have hspec : specSharedHobbies s u = (hobbyIdsOf s u).filter
      (fun h => (friendsOf s u).any (fun fr => (hobbyIdsOf s fr).contains h)) := by
    rw [specSharedHobbies, List.Nodup.dedup hHN, hD]
  have hptwise : ∀ h : Nat,
      (((s.userHobbies.filter (fun uh => (friendsOf s u).contains uh.userId)).map
        (fun uh => uh.hobbyId)).contains h) =
      ((friendsOf s u).any (fun fr => (hobbyIdsOf s fr).contains h)) := by
    intro h
    apply Bool.eq_iff_iff.mpr
    simp only [hobbyIdsOf, List.elem_iff, List.mem_map, List.mem_filter,
      List.any_eq_true, decide_eq_true_eq]
    constructor
    · rintro ⟨uh, ⟨huh, hmemF⟩, hh⟩
      exact ⟨uh.userId, hmemF, uh, ⟨huh, rfl⟩, hh⟩
    · rintro ⟨fr, hfr, uh, ⟨huh, hfr2⟩, hh⟩
      exact ⟨uh, ⟨huh, hfr2 ▸ hfr⟩, hh⟩
  have hshared : (if 0 < (friendIdsOf s u).length ∧ 0 < (hobbyIdsOf s u).length then
      ((hobbyIdsOf s u).filter (fun i =>
        (((s.userHobbies.filter (fun uh => (friendIdsOf s u).contains uh.userId)).map
          (fun uh => uh.hobbyId)).contains i))).length
      else 0) = (specSharedHobbies s u).length := by
    rw [hspec, hI]
    by_cases hfe : friendsOf s u = []
    · rw [hfe]
      rw [if_neg (by simp)]
      simp
    · by_cases hhe : hobbyIdsOf s u = []
      · rw [hhe]
        rw [if_neg (by simp [hhe])]
        simp
      · rw [if_pos ⟨List.length_pos.mpr hfe, List.length_pos.mpr hhe⟩]
        congr 1
        exact List.filter_congr (fun h _ => hptwise h)
  constructor
  · rw [calculatePopularityScore]
    rw [hshared]
    rw [hI, hD]
  · intro hnil
    rw [calculatePopularityScore, hshared, hspec]
    rw [hD] at hnil
    rw [hI, hnil]
    simp
end SocialGraph

namespace SocialGraph

/-- A store with users 1 and 2, linked, where both practice hobby 7 and
only user 1 practices hobby 8. -/
def c1State : DBState :=
  ⟨[⟨1, "A", 20, 0⟩, ⟨2, "B", 21, 1⟩], [⟨7, "Reading"⟩, ⟨8, "Music"⟩],
   [⟨1, 7⟩, ⟨1, 8⟩, ⟨2, 7⟩], [⟨100, 1, 2⟩]⟩

theorem c1_popularity_score_witness :
    WF c1State ∧
    (calculatePopularityScore c1State 1 =
       ((distinctFriends c1State 1).length : ℚ) +
         ((specSharedHobbies c1State 1).length : ℚ) * (1/2) ∧
     (distinctFriends c1State 1 = [] → calculatePopularityScore c1State 1 = 0)) :=
  ⟨by constructor <;> decide, c1_popularity_score c1State (by constructor <;> decide) 1⟩

end SocialGraph
